import Mathlib

set_option maxRecDepth 20000

/-!
Verification of the meal-plan parser and formatter of `src/agents/chef.py`
(`ChefAgent.parse_meal_plan_response` and `ChefAgent.format_structured_meal_plan`).

The Python code drives a small set of fixed regular expressions over the raw
LLM response.  Each regex that the source uses is embedded below as an
executable scanner over `List Char`, following Python `re` semantics for that
concrete pattern (leftmost non-overlapping matches, greedy `+` with
backtracking, lazy `+?`/`*?`, `.` not matching a newline unless `re.DOTALL`
was passed, `\s` the ASCII whitespace class, `\w` letters, digits and the
underscore).  The parser itself is then a direct transcription of the Python
control flow.  The only operations of the Python function that could raise at
run time are the `sections[1]`/`sections[2]`/`sections[3]` list indexings, so
the embedded parser performs those through `List.getElem?` and returns an
`Option`; totality is proved rather than assumed.
-/

/-- Python `\s` on ASCII text: the whitespace characters recognised by `re`. -/
def pySpace (c : Char) : Bool :=
  c = ' ' || c = '\t' || c = '\n' || c = '\r' || c = '\x0b' || c = '\x0c'

/-- Python `\w` on ASCII text: letters, digits and the underscore. -/
def wordChar (c : Char) : Bool :=
  c.isAlpha || c.isDigit || c = '_'

/-- `str.strip()` on a character list: drop whitespace from both ends. -/
def pyStripList (l : List Char) : List Char :=
  ((l.dropWhile pySpace).reverse.dropWhile pySpace).reverse

/-- `str.strip()`. -/
def pyStrip (s : String) : String :=
  String.mk (pyStripList s.data)

/-- `int()` applied to the digit string captured by a `(\d+)` group. -/
def digitsToNat (l : List Char) : Nat :=
  l.foldl (fun n c => n * 10 + (c.toNat - '0'.toNat)) 0

/-- Index of the first occurrence of `needle` in the haystack (substring
search, as used by the lazy `.*?(?=STOP|\Z)` regions of the fallback mode). -/
def findSub (needle : List Char) : List Char → Option Nat
  | [] => if needle.isPrefixOf ([] : List Char) then some 0 else none
  | c :: rest =>
    if needle.isPrefixOf (c :: rest) then some 0
    else (findSub needle rest).map (· + 1)

/-- Helper for the greedy-`\s+` backtracking case of `\s+(.+)` when the text
after the whitespace run has ended: the engine gives back whitespace one
character at a time, so the capture becomes the last non-newline whitespace
character (everything after it is newlines).  Returns that single-character
capture and the remainder after it. -/
def backtrackCap : List Char → Option (List Char × List Char)
  | [] => none
  | c :: rest =>
    match backtrackCap rest with
    | some r => some r
    | none => if c ≠ '\n' then some ([c], rest) else none

/-- Match `\s+(.+)` at the start of `t` (Python semantics: greedy `\s+` with
backtracking, `.` matching anything but a newline).  Returns the group-1
capture and the remainder after the whole match. -/
def matchSpDot (t : List Char) : Option (List Char × List Char) :=
  let w := t.takeWhile pySpace
  let u := t.drop w.length
  if w.isEmpty then none
  else if u.isEmpty then backtrackCap (w.drop 1)
  else some (u.takeWhile (fun c => c ≠ '\n'), u.dropWhile (fun c => c ≠ '\n'))

/-- Match `(\w+day):\s+(.+)` anchored at the start of `s` — the summary-line
pattern.  Since `d`,`a`,`y` are word characters and `:` is not, the regex can
only match when the maximal `\w` run at this position ends in `day` (with at
least one character before it) and is followed by `:`. -/
def matchDayMealAt (s : List Char) : Option ((String × String) × List Char) :=
  let run := s.takeWhile wordChar
  if 4 ≤ run.length ∧ run.drop (run.length - 3) = ['d', 'a', 'y'] then
    match s.drop run.length with
    | ':' :: t =>
      match matchSpDot t with
      | some (cap, rest) => some ((String.mk run, String.mk cap), rest)
      | none => none
    | _ => none
  else none

/-- Match `[-•]\s+(.+)` anchored at the start of `s` — a shopping-list or
ingredient bullet line. -/
def matchBulletAt (s : List Char) : Option (String × List Char) :=
  match s with
  | c :: t =>
    if c = '-' ∨ c = '•' then (matchSpDot t).map (fun p => (String.mk p.1, p.2))
    else none
  | [] => none

/-- Match `\d+\.\s+(.+)` anchored at the start of `s` — a numbered
instruction line. -/
def matchNumberedAt (s : List Char) : Option (String × List Char) :=
  let d := s.takeWhile Char.isDigit
  if d.isEmpty then none
  else
    match s.drop d.length with
    | '.' :: t => (matchSpDot t).map (fun p => (String.mk p.1, p.2))
    | _ => none

/-- Match `LABEL\s+(\d+)\s+minutes` anchored at the start of `s` (used with
`LABEL` = `Preparation Time:` and `Cooking Time:`). -/
def matchTimeAt (label : List Char) (s : List Char) : Option Nat :=
  if label.isPrefixOf s then
    let t := s.drop label.length
    let w := t.takeWhile pySpace
    let d := (t.drop w.length).takeWhile Char.isDigit
    let t2 := t.drop (w.length + d.length)
    let w2 := t2.takeWhile pySpace
    if ¬w.isEmpty ∧ ¬d.isEmpty ∧ ¬w2.isEmpty ∧
        ("minutes".data.isPrefixOf (t2.drop w2.length)) then
      some (digitsToNat d)
    else none
  else none

/-- Match `Servings:\s+(\d+)` anchored at the start of `s`. -/
def matchServingsAt (s : List Char) : Option Nat :=
  if "Servings:".data.isPrefixOf s then
    let t := s.drop 9
    let w := t.takeWhile pySpace
    let d := (t.drop w.length).takeWhile Char.isDigit
    if ¬w.isEmpty ∧ ¬d.isEmpty then some (digitsToNat d) else none
  else none

/-- `re.search`: first position (scanning left to right) where the anchored
matcher succeeds. -/
def searchFirst {α : Type} (m : List Char → Option α) : List Char → Option α
  | [] => none
  | c :: rest =>
    match m (c :: rest) with
    | some a => some a
    | none => searchFirst m rest

/-- `re.search(HEADER(.*?)(?=STOPPER|\Z), text, re.DOTALL)`, group 1: the text
between the first occurrence of `header` and the following first occurrence of
`stopper` (or the end). -/
def searchBetween (header stopper : List Char) (s : List Char) : Option (List Char) :=
  (findSub header s).map fun i =>
    let t := s.drop (i + header.length)
    match findSub stopper t with
    | some j => t.take j
    | none => t

/-- `re.search(HEADER.*?(?=STOPPER|\Z), text, re.DOTALL)`, group 0: like
`searchBetween` but the region includes the header itself. -/
def searchRegion (header stopper : List Char) (s : List Char) : Option (List Char) :=
  (findSub header s).map fun i =>
    let t := s.drop (i + header.length)
    match findSub stopper t with
    | some j => (s.drop i).take (header.length + j)
    | none => s.drop i

/-- `re.search(HEADER.*, text, re.DOTALL)`, group 0: from the first occurrence
of `header` to the end of the text. -/
def searchToEnd (header : List Char) (s : List Char) : Option (List Char) :=
  (findSub header s).map fun i => s.drop i

/-- `re.findall`: scan left to right; on a match continue after it, otherwise
advance one character.  All matchers used here consume at least one character,
so fuel equal to the length of the text is exact. -/
def scanAll {α : Type} (m : List Char → Option (α × List Char)) :
    Nat → List Char → List α
  | 0, _ => []
  | _ + 1, [] => []
  | fuel + 1, c :: rest =>
    match m (c :: rest) with
    | some (a, rest') => a :: scanAll m fuel rest'
    | none => scanAll m fuel rest

/-- Match the section-splitting pattern `# \d+\.\s+` anchored at the start;
returns the remainder after the matched separator. -/
def matchSectionSplitAt : List Char → Option (List Char)
  | '#' :: ' ' :: t =>
    let ds := t.takeWhile Char.isDigit
    if ds.isEmpty then none
    else
      match t.drop ds.length with
      | '.' :: t2 =>
        let w := t2.takeWhile pySpace
        if w.isEmpty then none else some (t2.drop w.length)
      | _ => none
  | _ => none

/-- `re.split(r'# \d+\.\s+', text)`: the segments between the non-overlapping
separator matches (empty segments included). -/
def splitOnSections : Nat → List Char → List Char → List String
  | 0, acc, s => [String.mk (acc.reverse ++ s)]
  | _ + 1, acc, [] => [String.mk acc.reverse]
  | fuel + 1, acc, c :: rest =>
    match matchSectionSplitAt (c :: rest) with
    | some rest' => String.mk acc.reverse :: splitOnSections fuel [] rest'
    | none => splitOnSections fuel (c :: acc) rest

/-- Body of the shopping-category pattern after a fixed amount of leading
whitespace has been assigned to its `\s+`: `(.+?)\n((?:[-•]\s+.+\n?)+)` (the
lazy `.+?` cannot cross a newline, so its only candidate stop is the first
newline).  `structured` selects the structured-mode variant (`\n?` at the end
of each bullet line) over the fallback variant (mandatory `\n`).
Returns (category capture, group-2 capture, remainder). -/
def catBody (bullets : List Char → Option (List Char × List Char)) (v : List Char) :
    Option (List Char × List Char × List Char) :=
  match v with
  | [] => none
  | c :: _ =>
    if c = '\n' then none
    else
      let cat := v.takeWhile (fun d => d ≠ '\n')
      match v.drop cat.length with
      | '\n' :: after =>
        match bullets after with
        | some (g2, rest) => some (cat, g2, rest)
        | none => none
      | _ => none

/-- One repetition `[-•]\s+.+\n?` (structured) or `[-•]\s+.+\n` (fallback) of
the shopping-item group.  Returns the consumed text and the remainder. -/
def bulletRep (structured : Bool) (v : List Char) : Option (List Char × List Char) :=
  match v with
  | c :: t =>
    if c = '-' ∨ c = '•' then
      match matchSpDot t with
      | some (_cap, rest) =>
        let consumed := 1 + (t.length - rest.length)
        match rest with
        | '\n' :: rest2 => some (v.take (consumed + 1), rest2)
        | _ => if structured then some (v.take consumed, rest) else none
      | none => none
    else none
  | [] => none

/-- Greedy tail of `(...)+`: keep taking repetitions while they match. -/
def bulletRepsAux (structured : Bool) : Nat → List Char → (List Char × List Char)
  | 0, v => ([], v)
  | fuel + 1, v =>
    match bulletRep structured v with
    | some (c, rest) =>
      let p := bulletRepsAux structured fuel rest
      (c ++ p.1, p.2)
    | none => ([], v)

/-- `((?:[-•]\s+.+\n?)+)` (resp. with mandatory `\n`): at least one
repetition, then greedily as many as possible.  Returns the group-2 capture
and the remainder. -/
def bulletReps (structured : Bool) (v : List Char) : Option (List Char × List Char) :=
  match bulletRep structured v with
  | some (c, rest) =>
    let p := bulletRepsAux structured rest.length rest
    some (c ++ p.1, p.2)
  | none => none

/-- Backtracking loop of the greedy leading `\s+` of the category pattern:
try assigning it `hi, hi-1, ..., 1` characters of the whitespace run. -/
def tryCatStarts (structured : Bool) : Nat → List Char →
    Option (List Char × List Char × List Char)
  | 0, _ => none
  | j + 1, t =>
    match catBody (bulletReps structured) (t.drop (j + 1)) with
    | some r => some r
    | none => tryCatStarts structured j t

/-- Match `##\s+(.+?)\n((?:[-•]\s+.+\n?)+)` (structured mode; the fallback
variant requires `\n` after every item) anchored at the start of `s`.
Returns ((category capture, group-2 capture), remainder). -/
def matchCategoryAt (structured : Bool) (s : List Char) :
    Option ((List Char × List Char) × List Char) :=
  match s with
  | '#' :: '#' :: t =>
    let w := t.takeWhile pySpace
    if w.isEmpty then none
    else
      match tryCatStarts structured w.length t with
      | some (cat, g2, rest) => some ((cat, g2), rest)
      | none => none
  | _ => none

/-- Lookahead `(?=##\s+\w+day:)`: does a fallback recipe day marker start
here?  (`\w+day` can only sit at the end of the maximal word run, followed by
`:`.) -/
def isDayMarker (s : List Char) : Bool :=
  match s with
  | '#' :: '#' :: t =>
    let w := t.takeWhile pySpace
    let u := t.drop w.length
    let run := u.takeWhile wordChar
    ¬w.isEmpty && decide (4 ≤ run.length) &&
      decide (run.drop (run.length - 3) = ['d', 'a', 'y']) &&
      (match u.drop run.length with
       | ':' :: _ => true
       | _ => false)
  | _ => false

/-- Lazy `(.+?)(?=##\s+\w+day:|\Z)` under `re.DOTALL`: consume at least one
character, then grow one character at a time until the lookahead holds.
Returns (capture, remainder). -/
def splitAtMarker : List Char → (List Char × List Char)
  | [] => ([], [])
  | c :: rest =>
    if isDayMarker rest then ([c], rest)
    else
      let p := splitAtMarker rest
      (c :: p.1, p.2)

/-- Match `##\s+(\w+day):\s+(.+?)(?=##\s+\w+day:|\Z)` (fallback recipe
blocks, `re.DOTALL`) anchored at the start of `s`.  Returns ((day capture,
block capture), remainder). -/
def matchFallbackRecipeAt (s : List Char) :
    Option ((String × List Char) × List Char) :=
  match s with
  | '#' :: '#' :: t =>
    let w := t.takeWhile pySpace
    if w.isEmpty then none
    else
      let u := t.drop w.length
      let run := u.takeWhile wordChar
      if 4 ≤ run.length ∧ run.drop (run.length - 3) = ['d', 'a', 'y'] then
        match u.drop run.length with
        | ':' :: t2 =>
          let w2 := t2.takeWhile pySpace
          if w2.isEmpty then none
          else
            let u2 := t2.drop w2.length
            if u2.isEmpty then
              match w2.reverse with
              | last :: _ :: _ => some ((String.mk run, [last]), [])
              | _ => none
            else
              let p := splitAtMarker u2
              some ((String.mk run, p.1), p.2)
        | _ => none
      else none
  | _ => none

/-- A parsed summary entry `{"day": ..., "meal": ...}`. -/
structure SummaryEntry where
  day : String
  meal : String
deriving Repr, DecidableEq

/-- A parsed recipe dictionary.  `day` is always set by the parser; every
other key may be absent, which the embedding represents with `Option`. -/
structure Recipe where
  day : String
  name : Option String := none
  prep_time : Option Nat := none
  cook_time : Option Nat := none
  servings : Option Nat := none
  ingredients : Option (List String) := none
  instructions : Option (List String) := none
deriving Repr, DecidableEq

/-- The structured meal plan.  `shopping_list` is a Python `dict` with string
keys, i.e. an insertion-ordered association list. -/
structure StructuredPlan where
  summary : List SummaryEntry
  shopping_list : List (String × List String)
  recipes : List Recipe
deriving Repr, DecidableEq

/-- Python `dict` assignment `d[k] = v`: overwrite in place if the key
exists, otherwise append. -/
def dictInsert (m : List (String × List String)) (k : String) (v : List String) :
    List (String × List String) :=
  if m.any (fun p => p.1 = k) then
    m.map (fun p => if p.1 = k then (k, v) else p)
  else m ++ [(k, v)]

/-- The five canonical weekday names, in order. -/
def weekdays : List String := ["Monday", "Tuesday", "Wednesday", "Thursday", "Friday"]

/-- Match the structured-mode day marker `##\s+DAY:` anchored at the start of
`s`; returns the length of the match.  (`\s+` must be maximal: stopping early
would leave a whitespace character where the day name is required.) -/
def dayMarkerMatchLen (day : List Char) (s : List Char) : Option Nat :=
  match s with
  | '#' :: '#' :: t =>
    let w := t.takeWhile pySpace
    if w.isEmpty then none
    else if (day ++ [':']).isPrefixOf (t.drop w.length) then
      some (2 + w.length + day.length + 1)
    else none
  | _ => none

/-- `re.finditer(rf'##\s+{day}:', text)`: the start positions of all
non-overlapping matches, scanning left to right. -/
def finditerDay (day : List Char) : Nat → Nat → List Char → List Nat
  | 0, _, _ => []
  | _ + 1, _, [] => []
  | fuel + 1, i, c :: rest =>
    match dayMarkerMatchLen day (c :: rest) with
    | some len => i :: finditerDay day fuel (i + len) ((c :: rest).drop len)
    | none => finditerDay day fuel (i + 1) rest

/-- Insert into a list sorted by a `Nat` key, after all strictly smaller keys
and before equal ones (left-to-right stable insertion). -/
def insertKeyed {α : Type} (key : α → Nat) (a : α) : List α → List α
  | [] => [a]
  | x :: xs => if key x < key a then x :: insertKeyed key a xs else a :: x :: xs

/-- Stable sort by a `Nat` key.  Python `list.sort(key=...)` and
`sorted(..., key=...)` are stable sorts, and a stable sort by key is unique,
so this insertion sort computes exactly what the source computes. -/
def stableSortKeyed {α : Type} (key : α → Nat) : List α → List α
  | [] => []
  | a :: l => insertKeyed key a (stableSortKeyed key l)

/-- Cut the recipes region into blocks, one per sorted day position; each
block runs from its marker to the next marker (or the end of the region). -/
def cutBlocks (s : List Char) : List (Nat × String) → List (String × List Char)
  | [] => []
  | [(p, d)] => [(d, s.drop p)]
  | (p, d) :: (q, e) :: rest =>
    (d, (s.drop p).take (q - p)) :: cutBlocks s ((q, e) :: rest)

/-- All day markers of the recipes region: for each weekday collect the
`finditer` positions, then sort by position (positions are distinct, so the
tuple sort of the source is a plain sort by position). -/
def allDayPositions (s : List Char) : List (Nat × String) :=
  stableSortKeyed (fun p => p.1)
    ((weekdays.map fun d => (finditerDay d.data s.length 0 s).map fun p => (p, d)).flatten)

/-- Structured-mode recipe name: `re.search(rf'##\s+{day}:\s+(.+?)(?:\n|$)',
block)`.  A block always starts with its own day marker and contains no other
occurrence of it, so the search reduces to matching `\s+(.+?)(?:\n|$)` right
after the marker, whose capture coincides with the greedy `\s+(.+)` capture. -/
def structuredName (day : List Char) (block : List Char) : Option String :=
  match dayMarkerMatchLen day block with
  | some len => (matchSpDot (block.drop len)).map fun p => pyStrip (String.mk p.1)
  | none => none

/-- Fallback-mode recipe name: `re.match(r'(.+?)(?:\n|$)', block)` — the first
line of the block, failing when the block starts with a newline (or is
empty). -/
def extractName (block : List Char) : Option String :=
  let ln := block.takeWhile (fun c => c ≠ '\n')
  if ln.isEmpty then none else some (pyStrip (String.mk ln))

/-- The field extractions shared by both parser modes: prep/cook times,
servings, the `### Ingredients:` bullet block (delimited by
`### Instructions` or the end) and the `### Instructions:` numbered block
(delimited by `##` or the end). -/
def extractFields (day : String) (name : Option String) (block : List Char) : Recipe :=
  { day := day
    name := name
    prep_time := searchFirst (matchTimeAt "Preparation Time:".data) block
    cook_time := searchFirst (matchTimeAt "Cooking Time:".data) block
    servings := searchFirst matchServingsAt block
    ingredients := (searchBetween "### Ingredients:".data "### Instructions".data block).map
      fun t => (scanAll matchBulletAt t.length t).map pyStrip
    instructions := (searchBetween "### Instructions:".data "##".data block).map
      fun t => (scanAll matchNumberedAt t.length t).map pyStrip }

/-- `re.findall(r'(\w+day):\s+(.+)', text)` turned into summary entries, each
meal stripped. -/
def extractSummary (region : List Char) : List SummaryEntry :=
  (scanAll matchDayMealAt region.length region).map fun dm =>
    { day := dm.1, meal := pyStrip dm.2 }

/-- The shopping-list extraction: find every category block, then re-extract
its bullet items, and store them in the dict keyed by the stripped category
name. -/
def extractCategories (structured : Bool) (region : List Char) :
    List (String × List String) :=
  (scanAll (matchCategoryAt structured) region.length region).foldl
    (fun acc cg =>
      let items := (scanAll matchBulletAt cg.2.length cg.2).map fun it => pyStrip it
      dictInsert acc (pyStrip (String.mk cg.1)) items)
    []

/-- Fallback parsing mode (`len(sections) < 4`): carve the three regions out
of the raw text by case-sensitive substring search for the literal header
phrases, then run the region extractors. -/
def fallbackParse (s : List Char) : StructuredPlan :=
  { summary :=
      match searchRegion "MEAL PLAN SUMMARY".data "SHOPPING LIST".data s with
      | some region => extractSummary region
      | none => []
    shopping_list :=
      match searchRegion "SHOPPING LIST".data "DETAILED RECIPES".data s with
      | some region => extractCategories false region
      | none => []
    recipes :=
      match searchToEnd "DETAILED RECIPES".data s with
      | some region =>
        (scanAll matchFallbackRecipeAt (region.length + 2) (region ++ ['#', '#'])).map
          fun db => extractFields db.1 (extractName db.2) db.2
      | none => [] }

/-- Structured parsing mode: the three split segments are stripped and fed to
the summary, shopping-list and recipe extractors; recipes are cut at the
sorted day-marker positions. -/
def structuredParse (t1 t2 t3 : String) : StructuredPlan :=
  let recipesText := (pyStrip t3).data
  { summary := extractSummary (pyStrip t1).data
    shopping_list := extractCategories true (pyStrip t2).data
    recipes :=
      (cutBlocks recipesText (allDayPositions recipesText)).map fun db =>
        extractFields db.1 (structuredName db.1.data db.2) db.2 }

/-- The plan as assembled before the final normalization step: split on
`# \d+\.\s+`; with at least 4 segments parse structured, otherwise fall
back.  The segment indexings are the only failure-capable operations of the
source, hence the `Option`. -/
def parse_pre (response_text : String) : Option StructuredPlan :=
  let s := response_text.data
  let sections := splitOnSections s.length [] s
  if sections.length < 4 then
    some (fallbackParse s)
  else
    match sections[1]?, sections[2]?, sections[3]? with
    | some t1, some t2, some t3 => some (structuredParse t1 t2 t3)
    | _, _, _ => none

/-- The recipe synthesized for a weekday with no parsed recipe: named from
the summary entry of that day when present, else a placeholder. -/
def synthRecipe (d : String) (summary : List SummaryEntry) : Recipe :=
  { day := d
    name := some
      (match summary.find? (fun e => e.day == d) with
       | some e => e.meal
       | none => "Meal not specified")
    prep_time := some 0
    cook_time := some 0
    servings := some 0
    ingredients := some []
    instructions := some ["Recipe details not available"] }

/-- Sort key of a recipe: `day_order.get(x.get("day", ""), 999)`. -/
def dayKey (r : Recipe) : Nat :=
  (weekdays.indexOf? r.day).getD 999

/-- The mandatory normalization: append a synthesized recipe for every
canonical weekday not already present, then stable-sort by day order. -/
def normalizePlan (p : StructuredPlan) : StructuredPlan :=
  let existing := p.recipes.map fun r => r.day
  let added := (weekdays.filter fun d => decide (¬ d ∈ existing)).map
    fun d => synthRecipe d p.summary
  { p with recipes := stableSortKeyed dayKey (p.recipes ++ added) }

/-- `ChefAgent.parse_meal_plan_response`. -/
def parse_meal_plan_response (response_text : String) : Option StructuredPlan :=
  (parse_pre response_text).map normalizePlan

/-- `"\n".join(lines)`. -/
def joinLines : List String → String
  | [] => ""
  | [l] => l
  | l :: ls => l ++ "\n" ++ joinLines ls

/-- Part 1 of the formatted output: the meal-plan summary and the shopping
list (with placeholders when empty). -/
def renderPart1 (p : StructuredPlan) : String :=
  let summaryLines :=
    if p.summary.isEmpty then ["No meal summary available."]
    else p.summary.map fun e => e.day ++ ": " ++ e.meal
  let shoppingLines :=
    if p.shopping_list.isEmpty then ["No shopping list available.", ""]
    else (p.shopping_list.map fun ci =>
      ("## " ++ ci.1) :: (ci.2.map fun it => "- " ++ it) ++ [""]).flatten
  joinLines (["# 1. MEAL PLAN SUMMARY"] ++ summaryLines ++ [""]
    ++ ["# 2. SHOPPING LIST"] ++ shoppingLines)

/-- One recipe rendered as its own message chunk: the `## Day: Name` header,
the present-only time/servings lines, then the ingredient bullets and the
1-based numbered instructions. -/
def renderRecipeChunk (r : Recipe) : String :=
  let timeLines :=
    (match r.prep_time with
     | some n => ["Preparation Time: " ++ toString n ++ " minutes"]
     | none => []) ++
    (match r.cook_time with
     | some n => ["Cooking Time: " ++ toString n ++ " minutes"]
     | none => []) ++
    (match r.servings with
     | some n => ["Servings: " ++ toString n]
     | none => [])
  let ingLines :=
    match r.ingredients with
    | some items => ["### Ingredients:"] ++ (items.map fun i => "- " ++ i) ++ [""]
    | none => []
  let insLines :=
    match r.instructions with
    | some steps =>
      ["### Instructions:"] ++
        (steps.enum.map fun si => toString (si.1 + 1) ++ ". " ++ si.2) ++ [""]
    | none => []
  joinLines (["## " ++ r.day ++ ": " ++ r.name.getD "Unnamed Recipe"]
    ++ timeLines ++ [""] ++ ingLines ++ insLines)

/-- `ChefAgent.format_structured_meal_plan`: part 1 (summary and shopping
list), then — when there are recipes — the literal `# 3. DETAILED RECIPES`
header chunk followed by one chunk per recipe, the recipes re-sorted
Monday→Friday (unknown days keyed 999, hence last). -/
def format_structured_meal_plan (p : StructuredPlan) : List String :=
  if p.recipes.isEmpty then
    [renderPart1 p, "No recipes available."]
  else
    renderPart1 p :: "# 3. DETAILED RECIPES"
      :: (stableSortKeyed dayKey p.recipes).map renderRecipeChunk

/-- One recipe rendered in the mandated response template of
`format_meal_plan_prompt` (the `# 3. DETAILED RECIPES` entries: `## Day:
Name`, the three timing lines, `### Ingredients:` bullets and
`### Instructions:` numbered steps, blank-line separated). -/
def renderTemplateRecipe (r : Recipe) : String :=
  "## " ++ r.day ++ ": " ++ r.name.getD "" ++ "\n"
    ++ "Preparation Time: " ++ toString (r.prep_time.getD 0) ++ " minutes\n"
    ++ "Cooking Time: " ++ toString (r.cook_time.getD 0) ++ " minutes\n"
    ++ "Servings: " ++ toString (r.servings.getD 0) ++ "\n\n"
    ++ "### Ingredients:\n"
    ++ String.join ((r.ingredients.getD []).map fun i => "- " ++ i ++ "\n") ++ "\n"
    ++ "### Instructions:\n"
    ++ String.join (((r.instructions.getD []).enum).map fun si =>
        toString (si.1 + 1) ++ ". " ++ si.2 ++ "\n") ++ "\n"

/-- A structured plan rendered as raw text through the exact three-section
template that `format_meal_plan_prompt` mandates for the model's response:
`# 1. MEAL PLAN SUMMARY` with `Day: Meal` lines, `# 2. SHOPPING LIST` with
`## Category` / `- item` blocks, and `# 3. DETAILED RECIPES` with one
template block per recipe. -/
def renderTemplate (p : StructuredPlan) : String :=
  "# 1. MEAL PLAN SUMMARY\n"
    ++ String.join (p.summary.map fun e => e.day ++ ": " ++ e.meal ++ "\n")
    ++ "\n# 2. SHOPPING LIST\n"
    ++ String.join (p.shopping_list.map fun ci =>
        "## " ++ ci.1 ++ "\n"
          ++ String.join (ci.2.map fun it => "- " ++ it ++ "\n") ++ "\n")
    ++ "# 3. DETAILED RECIPES\n\n"
    ++ String.join (p.recipes.map renderTemplateRecipe)

/-- A fully populated five-day plan used for the structured round-trip. -/
def planC5 : StructuredPlan :=
  { summary :=
      [{ day := "Monday", meal := "Tacos" }, { day := "Tuesday", meal := "Soup" },
       { day := "Wednesday", meal := "Stew" }, { day := "Thursday", meal := "Pasta" },
       { day := "Friday", meal := "Fish" }]
    shopping_list := [("Produce", ["salad", "corn"]), ("Dairy", ["milk"])]
    recipes :=
      [{ day := "Monday", name := some "Tacos", prep_time := some 10,
         cook_time := some 20, servings := some 4,
         ingredients := some ["beef", "salsa"], instructions := some ["cook", "serve"] },
       { day := "Tuesday", name := some "Soup", prep_time := some 5,
         cook_time := some 30, servings := some 4,
         ingredients := some ["corn"], instructions := some ["boil"] },
       { day := "Wednesday", name := some "Stew", prep_time := some 15,
         cook_time := some 25, servings := some 4,
         ingredients := some ["lamb"], instructions := some ["stew"] },
       { day := "Thursday", name := some "Pasta", prep_time := some 10,
         cook_time := some 10, servings := some 4,
         ingredients := some ["pasta"], instructions := some ["mix"] },
       { day := "Friday", name := some "Fish", prep_time := some 10,
         cook_time := some 15, servings := some 4,
         ingredients := some ["fish"], instructions := some ["fry"] }] }

/-- The plan produced for inputs in which no structure at all is found:
empty summary and shopping list, five placeholder recipes. -/
def placeholderPlan : StructuredPlan :=
  { summary := []
    shopping_list := []
    recipes := weekdays.map fun d => synthRecipe d [] }

/-- A recipe with a 4100-character name. -/
def longRecipe : Recipe :=
  { day := "Monday", name := some (String.mk (List.replicate 4100 'a')) }

/-- A plan whose single recipe has a 4100-character name. -/
def longNamePlan : StructuredPlan :=
  { summary := []
    shopping_list := []
    recipes := [longRecipe] }

/-- The plan parsed from `"MEAL PLAN SUMMARY\nMonday: Tacos"`: the summary
names Monday, so the synthesized Monday recipe carries that meal name. -/
def sumOnlyPlan : StructuredPlan :=
  { summary := [{ day := "Monday", meal := "Tacos" }]
    shopping_list := []
    recipes := synthRecipe "Monday" [{ day := "Monday", meal := "Tacos" }] ::
      (["Tuesday", "Wednesday", "Thursday", "Friday"].map fun d => synthRecipe d []) }

/-- The plan parsed from the fallback-mode input whose three header phrases
appear in their exact upper case. -/
def caseSensPlan : StructuredPlan :=
  { summary := [{ day := "Monday", meal := "Tacos" }]
    shopping_list := [("Produce", ["x"])]
    recipes := { day := "Monday", name := some "Tacos", servings := some 2 } ::
      (["Tuesday", "Wednesday", "Thursday", "Friday"].map fun d => synthRecipe d []) }

/-- The plan parsed from the structured input holding two `## Monday:` recipe
blocks: both blocks survive, the first-encountered one first. -/
def dupMondayPlan : StructuredPlan :=
  { summary := [{ day := "Monday", meal := "Tacos" }]
    shopping_list := [("P", ["x"])]
    recipes := { day := "Monday", name := some "Tacos", servings := some 2 } ::
      { day := "Monday", name := some "Soup", servings := some 3 } ::
      (["Tuesday", "Wednesday", "Thursday", "Friday"].map fun d => synthRecipe d []) }

/-- A small plan with recipes out of weekday order and an unknown day. -/
def scrambledPlan : StructuredPlan :=
  { summary := [{ day := "Monday", meal := "Tacos" }]
    shopping_list := [("Produce", ["x"])]
    recipes :=
      [{ day := "Friday", name := some "Fish" },
       { day := "Someday", name := some "Mystery" },
       { day := "Monday", name := some "Tacos" }] }

/-- A second small plan with recipes out of weekday order. -/
def twoRecipePlan : StructuredPlan :=
  { summary := []
    shopping_list := []
    recipes :=
      [{ day := "Wednesday", name := some "Stew" },
       { day := "Tuesday", name := some "Soup" }] }

theorem scanAll_forall {α : Type} (m : List Char → Option (α × List Char))
    (Q : α → Prop) (hm : ∀ s a r, m s = some (a, r) → Q a) :
    ∀ fuel s a, a ∈ scanAll m fuel s → Q a := by
  intro fuel
  induction fuel with
  | zero => intro s a ha; simp [scanAll] at ha
  | succ n ih =>
    intro s a ha
    cases s with
    | nil => simp [scanAll] at ha
    | cons c rest =>
      rw [scanAll] at ha
      cases hmc : m (c :: rest) with
      | none => rw [hmc] at ha; exact ih rest a ha
      | some pr =>
        rw [hmc] at ha
        rcases List.mem_cons.mp ha with ha | ha
        · exact ha ▸ hm (c :: rest) pr.1 pr.2 (by rw [hmc])
        · exact ih pr.2 a ha

theorem matchDayMealAt_shape (s : List Char) (d m : String) (r : List Char)
    (h : matchDayMealAt s = some ((d, m), r)) :
    4 ≤ d.data.length ∧ d.data.drop (d.data.length - 3) = ['d', 'a', 'y'] ∧
      ∀ c ∈ d.data, wordChar c = true := by
  simp only [matchDayMealAt] at h
  split at h
  case isTrue hcond =>
    split at h
    case h_1 t heq =>
      cases hsp : matchSpDot t with
      | none => rw [hsp] at h; exact absurd h (by simp)
      | some pr =>
        rw [hsp] at h
        have hd : d = String.mk (s.takeWhile wordChar) := by
          cases pr with
          | mk cap rest => simp at h; exact h.1.1.symm
        subst hd
        refine ⟨hcond.1, hcond.2, ?_⟩
        intro c hc
        exact List.mem_takeWhile_imp hc
    case h_2 => exact absurd h (by simp)
  case isFalse => exact absurd h (by simp)

theorem extractSummary_shape (region : List Char) (e : SummaryEntry)
    (he : e ∈ extractSummary region) :
    4 ≤ e.day.data.length ∧ e.day.data.drop (e.day.data.length - 3) = ['d', 'a', 'y'] ∧
      ∀ c ∈ e.day.data, wordChar c = true := by
  unfold extractSummary at he
  rcases List.mem_map.mp he with ⟨dm, hdm, hmk⟩
  have hday : e.day = dm.1 := by rw [← hmk]
  rw [hday]
  exact scanAll_forall matchDayMealAt
    (fun dm0 => 4 ≤ dm0.1.data.length ∧
      dm0.1.data.drop (dm0.1.data.length - 3) = ['d', 'a', 'y'] ∧
      ∀ c ∈ dm0.1.data, wordChar c = true)
    (fun s a r h => matchDayMealAt_shape s a.1 a.2 r (by
      cases a with
      | mk d0 m0 => exact h))
    region.length region dm hdm

theorem mem_insertKeyed {α : Type} (key : α → Nat) (a b : α) (l : List α) :
    b ∈ insertKeyed key a l ↔ b = a ∨ b ∈ l := by
  induction l with
  | nil => simp [insertKeyed]
  | cons x xs ih =>
    unfold insertKeyed
    split
    · rw [List.mem_cons, ih, List.mem_cons]
      tauto
    · rw [List.mem_cons]

theorem perm_insertKeyed {α : Type} (key : α → Nat) (a : α) (l : List α) :
    List.Perm (insertKeyed key a l) (a :: l) := by
  induction l with
  | nil => simp [insertKeyed]
  | cons x xs ih =>
    unfold insertKeyed
    split
    · exact (ih.cons x).trans (List.Perm.swap a x xs)
    · exact List.Perm.refl _

theorem perm_stableSortKeyed {α : Type} (key : α → Nat) (l : List α) :
    List.Perm (stableSortKeyed key l) l := by
  induction l with
  | nil => simp [stableSortKeyed]
  | cons a xs ih =>
    exact (perm_insertKeyed key a (stableSortKeyed key xs)).trans (ih.cons a)

theorem length_stableSortKeyed {α : Type} (key : α → Nat) (l : List α) :
    (stableSortKeyed key l).length = l.length :=
  (perm_stableSortKeyed key l).length_eq

theorem mem_stableSortKeyed {α : Type} (key : α → Nat) (a : α) (l : List α) :
    a ∈ stableSortKeyed key l ↔ a ∈ l :=
  (perm_stableSortKeyed key l).mem_iff

theorem pairwise_insertKeyed {α : Type} (key : α → Nat) (a : α) (l : List α)
    (h : l.Pairwise fun x y => key x ≤ key y) :
    (insertKeyed key a l).Pairwise fun x y => key x ≤ key y := by
  induction l with
  | nil => simp [insertKeyed]
  | cons x xs ih =>
    rw [List.pairwise_cons] at h
    unfold insertKeyed
    split
    case isTrue hlt =>
      rw [List.pairwise_cons]
      constructor
      · intro b hb
        rcases (mem_insertKeyed key a b xs).mp hb with hb | hb
        · exact hb ▸ Nat.le_of_lt hlt
        · exact h.1 b hb
      · exact ih h.2
    case isFalse hge =>
      rw [List.pairwise_cons]
      constructor
      · intro b hb
        rcases List.mem_cons.mp hb with hb | hb
        · exact hb ▸ Nat.le_of_not_lt hge
        · exact Nat.le_trans (Nat.le_of_not_lt hge) (h.1 b hb)
      · rw [List.pairwise_cons]; exact h

theorem pairwise_stableSortKeyed {α : Type} (key : α → Nat) (l : List α) :
    (stableSortKeyed key l).Pairwise fun x y => key x ≤ key y := by
  induction l with
  | nil => simp [stableSortKeyed]
  | cons a xs ih => exact pairwise_insertKeyed key a (stableSortKeyed key xs) ih

theorem normalizePlan_summary (q : StructuredPlan) :
    (normalizePlan q).summary = q.summary := rfl

theorem synthRecipe_day (d : String) (summary : List SummaryEntry) :
    (synthRecipe d summary).day = d := rfl

theorem normalizePlan_day_mem (q : StructuredPlan) (d : String) (hd : d ∈ weekdays) :
    ∃ r, r ∈ (normalizePlan q).recipes ∧ r.day = d := by
  unfold normalizePlan
  by_cases hex : d ∈ q.recipes.map fun r => r.day
  · rcases List.mem_map.mp hex with ⟨r, hr, hday⟩
    exact ⟨r, (mem_stableSortKeyed dayKey r _).mpr (List.mem_append_left _ hr), hday⟩
  · refine ⟨synthRecipe d q.summary, ?_, rfl⟩
    refine (mem_stableSortKeyed dayKey _ _).mpr (List.mem_append_right _ ?_)
    refine List.mem_map.mpr ⟨d, ?_, rfl⟩
    refine List.mem_filter.mpr ⟨hd, ?_⟩
    exact decide_eq_true hex

theorem normalizePlan_length (q : StructuredPlan) :
    5 ≤ (normalizePlan q).recipes.length := by
  have hsub : weekdays.toFinset ⊆ ((normalizePlan q).recipes.map fun r => r.day).toFinset := by
    intro d hd
    rcases normalizePlan_day_mem q d (List.mem_toFinset.mp hd) with ⟨r, hr, hday⟩
    exact List.mem_toFinset.mpr (List.mem_map.mpr ⟨r, hr, hday⟩)
  have h1 : weekdays.toFinset.card = 5 := by decide
  have h2 : ((normalizePlan q).recipes.map fun r => r.day).toFinset.card ≤
      ((normalizePlan q).recipes.map fun r => r.day).length :=
    List.toFinset_card_le _
  have h3 := Finset.card_le_card hsub
  rw [h1] at h3
  rw [List.length_map] at h2
  exact Nat.le_trans h3 h2

theorem normalizePlan_sorted (q : StructuredPlan) :
    (normalizePlan q).recipes.Pairwise fun a b => dayKey a ≤ dayKey b :=
  pairwise_stableSortKeyed dayKey _

theorem parse_decompose (s : String) (p : StructuredPlan)
    (h : parse_meal_plan_response s = some p) :
    ∃ pre, parse_pre s = some pre ∧ p = normalizePlan pre := by
  unfold parse_meal_plan_response at h
  rcases Option.map_eq_some'.mp h with ⟨pre, hpre, hmap⟩
  exact ⟨pre, hpre, hmap.symm⟩

theorem parse_pre_total (s : String) : ∃ pre, parse_pre s = some pre := by
  simp only [parse_pre]
  split
  · exact ⟨_, rfl⟩
  case isFalse hge =>
    have h4 : 4 ≤ (splitOnSections s.data.length [] s.data).length := Nat.le_of_not_lt hge
    have h1 : (splitOnSections s.data.length [] s.data)[1]? =
        some (splitOnSections s.data.length [] s.data)[1] :=
      List.getElem?_eq_getElem (by omega)
    have h2 : (splitOnSections s.data.length [] s.data)[2]? =
        some (splitOnSections s.data.length [] s.data)[2] :=
      List.getElem?_eq_getElem (by omega)
    have h3 : (splitOnSections s.data.length [] s.data)[3]? =
        some (splitOnSections s.data.length [] s.data)[3] :=
      List.getElem?_eq_getElem (by omega)
    rw [h1, h2, h3]
    exact ⟨_, rfl⟩

theorem parse_pre_summary (s : String) (pre : StructuredPlan)
    (h : parse_pre s = some pre) (e : SummaryEntry) (he : e ∈ pre.summary) :
    4 ≤ e.day.data.length ∧ e.day.data.drop (e.day.data.length - 3) = ['d', 'a', 'y'] ∧
      ∀ c ∈ e.day.data, wordChar c = true := by
  simp only [parse_pre] at h
  split at h
  · have hpre : pre = fallbackParse s.data := by
      have := h
      simp at this
      exact this.symm
    subst hpre
    unfold fallbackParse at he
    simp only at he
    revert he
    split
    · intro he; exact extractSummary_shape _ e he
    · intro he; simp at he
  · split at h
    case h_1 t1 t2 t3 he1 he2 he3 =>
      have hpre : pre = structuredParse t1 t2 t3 := by
        have := h
        simp at this
        exact this.symm
      subst hpre
      unfold structuredParse at he
      simp only at he
      exact extractSummary_shape _ e he
    case h_2 => exact absurd h (by simp)

/-- C1 counterexample: for the input `"DETAILED RECIPES\n## Sunday: Brunch\n"`
the parsed plan has 6 recipes, one of whose day values (`Sunday`) is not a
weekday — so the recipe day set is not exactly Monday..Friday and the list
does not have exactly 5 entries. -/
theorem C1_counterexample :
    ∃ p, parse_meal_plan_response "DETAILED RECIPES\n## Sunday: Brunch\n" = some p ∧
      p.recipes.length ≠ 5 ∧ ¬ ∀ r ∈ p.recipes, r.day ∈ weekdays := by
  refine ⟨(parse_meal_plan_response "DETAILED RECIPES\n## Sunday: Brunch\n").get (by decide),
    (Option.some_get _).symm, by decide, by decide⟩

/-- C1 (amended): for every input string, every weekday Monday..Friday occurs
among the day values of the parsed recipes, the recipes list has at least 5
entries, and it is sorted by weekday order (unrecognized days keyed 999,
hence last); however duplicate days and extra non-weekday days can remain, so
the day set need not be exactly the five weekdays. -/
theorem C1_amended (s : String) (p : StructuredPlan)
    (h : parse_meal_plan_response s = some p) :
    (∀ d ∈ weekdays, ∃ r, r ∈ p.recipes ∧ r.day = d) ∧
      5 ≤ p.recipes.length ∧ p.recipes.Pairwise (fun a b => dayKey a ≤ dayKey b) := by
  rcases parse_decompose s p h with ⟨pre, hpre, hp⟩
  subst hp
  exact ⟨fun d hd => normalizePlan_day_mem pre d hd, normalizePlan_length pre,
    normalizePlan_sorted pre⟩

/-- Witness for C1 (amended) at the empty input string. -/
theorem C1_amended_witness :
    (∀ d ∈ weekdays, ∃ r, r ∈ placeholderPlan.recipes ∧ r.day = d) ∧
      5 ≤ placeholderPlan.recipes.length ∧
      placeholderPlan.recipes.Pairwise (fun a b => dayKey a ≤ dayKey b) :=
  C1_amended "" placeholderPlan (by decide)

/-- C2: the parser is total — for every input string (the indexings
`sections[1]`/`sections[2]`/`sections[3]` being the only failure-capable
operations of the source), it returns a structured plan, and missing data
degrades to synthesized placeholder recipes: every weekday is covered in the
result. -/
theorem C2_parser_total (s : String) :
    ∃ p, parse_meal_plan_response s = some p ∧
      ∀ d ∈ weekdays, ∃ r, r ∈ p.recipes ∧ r.day = d := by
  rcases parse_pre_total s with ⟨pre, hpre⟩
  refine ⟨normalizePlan pre, ?_, fun d hd => normalizePlan_day_mem pre d hd⟩
  unfold parse_meal_plan_response
  rw [hpre]
  rfl

/-- C3 counterexample: for `"Monday: Tacos\nTuesday: Soup"` the fallback
summary search requires the literal header `MEAL PLAN SUMMARY`, so the parsed
summary has 0 entries (not 2) and no recipe is named `Tacos`. -/
theorem C3_counterexample :
    ∃ p, parse_meal_plan_response "Monday: Tacos\nTuesday: Soup" = some p ∧
      p.summary.length ≠ 2 ∧ ¬ ∃ r, r ∈ p.recipes ∧ r.name = some "Tacos" :=
  ⟨placeholderPlan, by decide, by decide, by decide⟩

/-- C3 (amended): for the input `"Monday: Tacos\nTuesday: Soup"` (no section
headers at all) the fallback finds none of the three header phrases, so parse
returns an empty summary, an empty shopping list, and 5 recipes all named
`Meal not specified`. -/
theorem C3_amended :
    parse_meal_plan_response "Monday: Tacos\nTuesday: Soup" = some placeholderPlan ∧
      placeholderPlan.summary = [] ∧ placeholderPlan.shopping_list = [] ∧
      placeholderPlan.recipes.length = 5 ∧
      ∀ r ∈ placeholderPlan.recipes, r.name = some "Meal not specified" := by
  decide

/-- C4: the formatter enforces no chunk-size ceiling — a plan whose recipe
name has 4100 characters produces a chunk of more than 4096 characters. -/
theorem C4_no_chunk_bound :
    ∃ c, c ∈ format_structured_meal_plan longNamePlan ∧ 4096 < c.length := by
  refine ⟨renderRecipeChunk longRecipe, ?_, ?_⟩
  · show renderRecipeChunk longRecipe ∈ format_structured_meal_plan longNamePlan
    simp [format_structured_meal_plan, longNamePlan, stableSortKeyed, insertKeyed]
  · have hlen : renderRecipeChunk longRecipe =
        ("## " ++ "Monday" ++ ": " ++ String.mk (List.replicate 4100 'a')) ++ "
" ++ "" := rfl
    have hn : (String.mk (List.replicate 4100 'a')).length = 4100 := by
      show (List.replicate 4100 'a').length = 4100
      exact List.length_replicate 4100 'a'
    rw [hlen]
    simp only [String.length_append, hn]
    decide

/-- C5: structured round-trip — rendering a fully populated five-day plan
through the exact three-section template mandated by
`format_meal_plan_prompt` and parsing the result reproduces the plan
exactly (summary, shopping list, and every populated recipe field). -/
theorem C5_round_trip :
    parse_meal_plan_response (renderTemplate planC5) = some planC5 := by
  decide

/-- C6 counterexample: with the three header phrases in lower case the
fallback substring search (which is case-sensitive: no `re.IGNORECASE` is
passed) locates none of the three regions — summary and shopping list come
back empty and all recipes are placeholders. -/
theorem C6_counterexample :
    ∃ p, parse_meal_plan_response
        "meal plan summary\nMonday: Tacos\nshopping list\n## Produce\n- x\ndetailed recipes\n## Monday: Tacos\nServings: 2\n"
        = some p ∧
      p.summary = [] ∧ p.shopping_list = [] ∧
      ∀ r ∈ p.recipes, r.name = some "Meal not specified" :=
  ⟨placeholderPlan, by decide, by decide, by decide, by decide⟩

/-- C6 (amended): the fallback substring search for the header phrases is
case-sensitive; with the headers in their exact upper case the three regions
are located (summary, shopping list and recipe extracted), while other letter
cases are not found. -/
theorem C6_amended :
    parse_meal_plan_response
        "MEAL PLAN SUMMARY\nMonday: Tacos\nSHOPPING LIST\n## Produce\n- x\nDETAILED RECIPES\n## Monday: Tacos\nServings: 2\n"
      = some caseSensPlan := by
  decide

/-- C7 counterexample: six `Sunday:` lines under a `MEAL PLAN SUMMARY` header
give a parsed summary with 6 entries whose day (`Sunday`) is not one of the
five weekday names. -/
theorem C7_counterexample :
    ∃ p, parse_meal_plan_response
        "MEAL PLAN SUMMARY\nSunday: A\nSunday: B\nSunday: C\nSunday: D\nSunday: E\nSunday: F"
        = some p ∧
      ¬ p.summary.length ≤ 5 ∧ ∃ e, e ∈ p.summary ∧ ¬ e.day ∈ weekdays := by
  refine ⟨(parse_meal_plan_response
      "MEAL PLAN SUMMARY\nSunday: A\nSunday: B\nSunday: C\nSunday: D\nSunday: E\nSunday: F").get
        (by decide),
    (Option.some_get _).symm, by decide, by decide⟩

/-- C7 (amended): every parsed summary entry's day is a nonempty word
(letters, digits, underscores) of length at least 4 ending in `day`; the
length of the summary and the set of day values are otherwise unconstrained
(more than 5 entries and non-weekday days such as `Sunday` are possible). -/
theorem C7_amended (s : String) (p : StructuredPlan)
    (h : parse_meal_plan_response s = some p) :
    ∀ e ∈ p.summary, 4 ≤ e.day.data.length ∧
      e.day.data.drop (e.day.data.length - 3) = ['d', 'a', 'y'] ∧
      ∀ c ∈ e.day.data, wordChar c = true := by
  rcases parse_decompose s p h with ⟨pre, hpre, hp⟩
  subst hp
  rw [normalizePlan_summary]
  exact fun e he => parse_pre_summary s pre hpre e he

/-- Witness for C7 (amended) at an input with a nonempty summary, applied to
its Monday entry. -/
theorem C7_amended_witness :
    4 ≤ (SummaryEntry.mk "Monday" "Tacos").day.data.length ∧
      (SummaryEntry.mk "Monday" "Tacos").day.data.drop
        ((SummaryEntry.mk "Monday" "Tacos").day.data.length - 3) = ['d', 'a', 'y'] ∧
      ∀ c ∈ (SummaryEntry.mk "Monday" "Tacos").day.data, wordChar c = true :=
  C7_amended "MEAL PLAN SUMMARY\nMonday: Tacos" sumOnlyPlan (by decide)
    (SummaryEntry.mk "Monday" "Tacos") (by decide)

/-- C8: with two `## Monday:` blocks in the structured recipes region, the
first-encountered block (name `Tacos`, servings 2) is the first Monday recipe
of the returned plan — `find?` on day Monday returns it — while the duplicate
block is kept after it, not deduplicated. -/
theorem C8_first_block_canonical :
    ∃ p, parse_meal_plan_response
        "# 1. MEAL PLAN SUMMARY\nMonday: Tacos\n# 2. SHOPPING LIST\n## P\n- x\n# 3. DETAILED RECIPES\n## Monday: Tacos\nServings: 2\n## Monday: Soup\nServings: 3\n"
        = some p ∧
      p.recipes.find? (fun r => r.day == "Monday") =
        some { day := "Monday", name := some "Tacos", servings := some 2 } ∧
      (p.recipes.filter (fun r => r.day == "Monday")).map (fun r => r.name) =
        [some "Tacos", some "Soup"] :=
  ⟨dupMondayPlan, by decide, by decide, by decide⟩

/-- C9: for every plan with a non-empty recipes list the formatter returns at
least 2 chunks, and each recipe's full rendering (its `## Day: Name` header
together with its Ingredients and Instructions) is contained unsplit in a
single chunk of the output. -/
theorem C9_chunks (p : StructuredPlan) (h : p.recipes ≠ []) :
    2 ≤ (format_structured_meal_plan p).length ∧
      ∀ r ∈ p.recipes, renderRecipeChunk r ∈ format_structured_meal_plan p := by
  have hne : p.recipes.isEmpty = false := by
    cases hl : p.recipes with
    | nil => exact absurd hl h
    | cons a l => rfl
  unfold format_structured_meal_plan
  rw [hne]
  simp only [Bool.false_eq_true, if_false]
  constructor
  · simp only [List.length_cons]
    omega
  · intro r hr
    refine List.mem_cons_of_mem _ (List.mem_cons_of_mem _ ?_)
    exact List.mem_map_of_mem renderRecipeChunk ((mem_stableSortKeyed dayKey r _).mpr hr)

/-- Witness for C9 at a concrete two-recipe plan. -/
theorem C9_chunks_witness :
    2 ≤ (format_structured_meal_plan twoRecipePlan).length ∧
      ∀ r ∈ twoRecipePlan.recipes,
        renderRecipeChunk r ∈ format_structured_meal_plan twoRecipePlan :=
  C9_chunks twoRecipePlan (by decide)

/-- C10: for every plan with non-empty recipes the formatter returns exactly
(number of recipes + 2) chunks — the part-1 chunk (summary and shopping
list), the literal `# 3. DETAILED RECIPES` chunk, then one chunk per recipe —
with the recipes re-sorted by weekday order (a permutation of the input
recipes, unrecognized days keyed 999 and hence last), regardless of input
order. -/
theorem C10_chunk_structure (p : StructuredPlan) (h : p.recipes ≠ []) :
    format_structured_meal_plan p =
      renderPart1 p :: "# 3. DETAILED RECIPES"
        :: (stableSortKeyed dayKey p.recipes).map renderRecipeChunk ∧
      (format_structured_meal_plan p).length = p.recipes.length + 2 ∧
      List.Perm (stableSortKeyed dayKey p.recipes) p.recipes ∧
      (stableSortKeyed dayKey p.recipes).Pairwise fun a b => dayKey a ≤ dayKey b := by
  have hne : p.recipes.isEmpty = false := by
    cases hl : p.recipes with
    | nil => exact absurd hl h
    | cons a l => rfl
  have hfmt : format_structured_meal_plan p =
      renderPart1 p :: "# 3. DETAILED RECIPES"
        :: (stableSortKeyed dayKey p.recipes).map renderRecipeChunk := by
    unfold format_structured_meal_plan
    rw [hne]
    simp only [Bool.false_eq_true, if_false]
  have hlen : (format_structured_meal_plan p).length = p.recipes.length + 2 := by
    rw [hfmt, List.length_cons, List.length_cons, List.length_map, length_stableSortKeyed]
  exact ⟨hfmt, hlen, perm_stableSortKeyed dayKey p.recipes,
    pairwise_stableSortKeyed dayKey _⟩

/-- Witness for C10 at a concrete out-of-order plan. -/
theorem C10_chunk_structure_witness :
    format_structured_meal_plan scrambledPlan =
      renderPart1 scrambledPlan :: "# 3. DETAILED RECIPES"
        :: (stableSortKeyed dayKey scrambledPlan.recipes).map renderRecipeChunk ∧
      (format_structured_meal_plan scrambledPlan).length =
        scrambledPlan.recipes.length + 2 ∧
      List.Perm (stableSortKeyed dayKey scrambledPlan.recipes) scrambledPlan.recipes ∧
      (stableSortKeyed dayKey scrambledPlan.recipes).Pairwise
        fun a b => dayKey a ≤ dayKey b :=
  C10_chunk_structure scrambledPlan (by decide)
